import Mathlib

/-!
Shallow embedding of the NeuralFlow workflow engine (src/neuralflow.h)
and proofs about its node lifecycle, retry engine, successor graph,
orchestration loop and batch extensions.

Modelling conventions:
* `Params`/`Context` values (`std::any`) are an arbitrary type `V`;
  parameter maps (`std::map<std::string, std::any>`) are functional maps
  `String → Option V`.
* Nodes are identified by `Nat` ids (object identity); a `shared_ptr`
  that may be null is `Option Nat`.
* Exceptions are values of `Exn`, carrying the dynamic type name and the
  `what()` message; fallible functions return `Except Exn _`.
* User-supplied virtual methods (`exec`, `execFallback`, `execItem`,
  `execItemFallback`, `prepBatch`, `postBatch`, a node's `internalRun`)
  are oracles passed as function arguments; attempt-dependent behaviour of
  `exec` is an oracle indexed by the 0-based attempt number.
* Blocking delays (`std::this_thread::sleep_for`) are recorded in a trace:
  each inter-attempt gap records the milliseconds actually waited in it
  (`waitMillis` when the guarded sleep runs, `0` when the guard skips it).
-/

namespace NeuralFlow

/-- A `std::map<std::string, std::any>` as a functional map. -/
def ParamsMap (V : Type) : Type := String → Option V

/-- A C++ exception object: its dynamic type name and its `what()` message. -/
structure Exn where
  ty : String
  msg : String
  deriving DecidableEq, Repr

/-- Outcome of one call to a user-supplied method: return a value, throw a
`std::exception`-derived object, or throw a non-standard exception. -/
inductive Outcome (E : Type) where
  | ok (v : E)
  | throwStd (e : Exn)
  | throwNonStd
  deriving DecidableEq, Repr

/-- `true` iff the call threw (either kind of exception). -/
def Outcome.isThrow {E : Type} : Outcome E → Bool
  | .ok _ => false
  | .throwStd _ => true
  | .throwNonStd => true

/-- `std::map::insert(first, last)` over a whole map: entries of `add` are
inserted only where `m` has no entry with an equivalent key (existing
entries are NOT overwritten).  This models line 447 of neuralflow.h:
`currentRunParams.insert(initialParams.begin(), initialParams.end())`. -/
def mapInsertRange {V : Type} (m add : ParamsMap V) : ParamsMap V :=
  fun k => match m k with
    | some v => some v
    | none => add k

/-- `Flow::orchestrate` lines 446-447: the run params start from the Flow's
own standing params and then `insert` the per-invocation `initialParams`. -/
def currentRunParams {V : Type} (flowParams initialParams : ParamsMap V) : ParamsMap V :=
  mapInsertRange flowParams initialParams

/-- The mutable state of a `BaseNode` relevant to params and successors:
its standing `params` member and its `successors` map (action label to
node id; `std::map<std::string, std::shared_ptr<IBaseNode>>`). -/
structure BaseNodeState (V : Type) where
  params : ParamsMap V
  successors : String → Option Nat

/-- `BaseNode::setParamsInternal` (lines 85-87): `params = newParams`,
a wholesale assignment of the member. -/
def setParamsInternal {V : Type} (n : BaseNodeState V) (newParams : ParamsMap V) :
    BaseNodeState V :=
  { n with params := newParams }

/-- `BaseNode::next(node, action)` (lines 115-124): after the null check it
does `successors[action] = node`; `std::map::operator[]` inserts or
*assigns*, so a prior entry under the same label is replaced. -/
def nextSucc {V : Type} (n : BaseNodeState V) (node : Nat) (action : String) :
    BaseNodeState V :=
  { n with successors := fun k => if k = action then some node else n.successors k }

/-- `BaseNode::next(node)` (lines 126-128): registers under the empty string,
the internal key for the default action. -/
def nextSuccDefault {V : Type} (n : BaseNodeState V) (node : Nat) : BaseNodeState V :=
  nextSucc n node ""

/-- `BaseNode::getNextNode` (lines 181-198): `action.value_or("")` then a map
lookup; a miss returns `nullptr` (after a non-fatal warning). -/
def getNextNode {V : Type} (n : BaseNodeState V) (action : Option String) : Option Nat :=
  n.successors (action.getD "")

/-- `Node::Node(retries, waitMilliseconds)` (lines 239-243): stores the
fields, then throws `std::invalid_argument` if `maxRetries < 1` or
`waitMillis < 0`.  Arguments are C++ `int` and `long long`, embedded as
`Int` (the checks are plain comparisons, no arithmetic overflows). -/
def nodeCtor (retries waitMilliseconds : Int) : Except Exn (Int × Int) :=
  if retries < 1 then
    .error ⟨"std::invalid_argument", "maxRetries must be at least 1"⟩
  else if waitMilliseconds < 0 then
    .error ⟨"std::invalid_argument", "waitMillis cannot be negative"⟩
  else
    .ok (retries, waitMilliseconds)

/-- The exception stored by the retry loop after a failed attempt
(lines 272-276 and 287-288, mirrored at 364-372 for `BatchNode`):
always a freshly constructed `std::runtime_error`; for a standard
exception it carries `what()` of the caught exception, for a
non-standard one the fixed placeholder `nonStdMsg`. -/
def storedExn (nonStdMsg : String) {E : Type} : Outcome E → Option Exn
  | .ok _ => none
  | .throwStd e => some ⟨"std::runtime_error", e.msg⟩
  | .throwNonStd => some ⟨"std::runtime_error", nonStdMsg⟩

/-- Result of the retry `for` loop: how often `exec` was called, the
milliseconds waited in each inter-attempt gap (one entry per gap entered;
`0` when the `waitMillis > 0` guard skipped the sleep), and either the
successful value or the `lastExceptionPtr` left behind (`none` if the loop
never stored one, i.e. never ran). -/
structure LoopOut (E : Type) where
  execCalls : Nat
  delays : List Nat
  outcome : Except (Option Exn) E
  deriving Repr

/-- The retry `for` loop of `Node::internalExec` (lines 258-293), also the
per-item loop of `BatchNode::internalExec` (lines 359-377).
`W` is `waitMillis`, `execB i` the outcome of the `exec` call on 0-based
attempt `i`, `remaining` the number of iterations the loop has left,
`idx` the current value of `currentRetry`, and `last` the
`lastExceptionPtr` carried in.  After a failed attempt the loop sleeps
`W` ms only if another iteration remains and `W > 0`; the gap entered
records the time actually waited. -/
def retryLoop (nonStdMsg : String) {E : Type} (W : Nat) (execB : Nat → Outcome E) :
    (idx remaining : Nat) → Option Exn → LoopOut E
  | _, 0, last => ⟨0, [], .error last⟩
  | idx, remaining + 1, _ =>
    match execB idx with
    | .ok v => ⟨1, [], .ok v⟩
    | o =>
      let stored := storedExn nonStdMsg o
      let gap : List Nat :=
        if 0 < remaining then [if 0 < W then W else 0] else []
      let rest := retryLoop nonStdMsg W execB (idx + 1) remaining stored
      ⟨rest.execCalls + 1, gap ++ rest.delays, rest.outcome⟩

/-- Full trace of one `internalExec` invocation. -/
structure ExecOut (E : Type) where
  execCalls : Nat
  fallbackCalls : Nat
  fallbackArg : Option Exn
  delays : List Nat
  result : Except Exn E
  deriving Repr

/-- `what()` of a `NeuralFlowException` built with a cause (lines 36-37). -/
def causedMsg (message causeWhat : String) : String :=
  message ++ " (Caused by: " ++ causeWhat ++ ")"

/-- `Node::internalExec` (lines 255-308).  `R` is `maxRetries`, `W` is
`waitMillis`, `execB` the attempt-indexed behaviour of `exec`, `fallbackB`
the behaviour of `execFallback` given the exception it receives.  Runs
the retry loop; on exhaustion calls `execFallback` once with the stored
exception, wrapping any fallback failure (and the no-exception-captured
case, whose throw at line 298 is caught by the same `catch` at 302) in a
`NeuralFlowException`. -/
def nodeInternalExec {E : Type} (R W : Nat) (execB : Nat → Outcome E)
    (fallbackB : Exn → Outcome E) : ExecOut E :=
  let l := retryLoop "Non-standard exception caught during exec" W execB 0 R none
  match l.outcome with
  | .ok v => ⟨l.execCalls, 0, none, l.delays, .ok v⟩
  | .error none =>
    ⟨l.execCalls, 0, none, l.delays,
      .error ⟨"NeuralFlowException",
        causedMsg "Fallback execution failed after main exec retries failed."
          "Execution failed after retries, but no exception was captured."⟩⟩
  | .error (some last) =>
    match fallbackB last with
    | .ok v => ⟨l.execCalls, 1, some last, l.delays, .ok v⟩
    | .throwStd e =>
      ⟨l.execCalls, 1, some last, l.delays,
        .error ⟨"NeuralFlowException",
          causedMsg "Fallback execution failed after main exec retries failed." e.msg⟩⟩
    | .throwNonStd =>
      ⟨l.execCalls, 1, some last, l.delays,
        .error ⟨"NeuralFlowException",
          causedMsg "Fallback execution failed with non-standard exception."
            "Unknown fallback error"⟩⟩

/-- The per-item part of `BatchNode::internalExec` (lines 354-391): the same
retry loop scoped to one item, then `execItemFallback` on exhaustion, with
the `BatchNode` messages (placeholder at line 372, wrappers at lines
382-388; the no-exception throw at 382 is caught by the `catch` at 385). -/
def batchItemRun {O : Type} (R W : Nat) (execB : Nat → Outcome O)
    (fallbackB : Exn → Outcome O) : ExecOut O :=
  let l := retryLoop "Non-standard exception during execItem" W execB 0 R none
  match l.outcome with
  | .ok v => ⟨l.execCalls, 0, none, l.delays, .ok v⟩
  | .error none =>
    ⟨l.execCalls, 0, none, l.delays,
      .error ⟨"NeuralFlowException",
        causedMsg "Item fallback execution failed."
          "Item execution failed without exception for item."⟩⟩
  | .error (some last) =>
    match fallbackB last with
    | .ok v => ⟨l.execCalls, 1, some last, l.delays, .ok v⟩
    | .throwStd e =>
      ⟨l.execCalls, 1, some last, l.delays,
        .error ⟨"NeuralFlowException", causedMsg "Item fallback execution failed." e.msg⟩⟩
    | .throwNonStd =>
      ⟨l.execCalls, 1, some last, l.delays,
        .error ⟨"NeuralFlowException",
          causedMsg "Item fallback failed with non-standard exception."
            "Unknown item fallback error"⟩⟩

/-- Trace of `BatchNode::internalExec`: the per-item traces of every item
whose processing was entered (in input order), and the overall result
(the `results` vector, or the escalated exception). -/
structure BatchOut (O : Type) where
  itemTraces : List (ExecOut O)
  result : Except Exn (List O)
  deriving Repr

/-- The item loop of `BatchNode::internalExec` (lines 354-392), running over
items `i, i+1, ..., i+count-1`.  Each item runs `batchItemRun`; a
successful item appends its result and the loop continues with the next
item; a failing item (retries and fallback exhausted) throws, so no later
item is entered and no results vector is produced. -/
def batchLoop {O : Type} (R W : Nat) (execItemB : Nat → Nat → Outcome O)
    (itemFallbackB : Nat → Exn → Outcome O) : (i count : Nat) → BatchOut O
  | _, 0 => ⟨[], .ok []⟩
  | i, count + 1 =>
    let t := batchItemRun R W (execItemB i) (itemFallbackB i)
    match t.result with
    | .ok v =>
      let rest := batchLoop R W execItemB itemFallbackB (i + 1) count
      ⟨t :: rest.itemTraces,
        match rest.result with
        | .ok l => .ok (v :: l)
        | .error e => .error e⟩
    | .error e => ⟨[t], .error e⟩

/-- `BatchNode::internalExec` (lines 346-395) over an input sequence of
length `n` (items identified by position; `execItemB i a` is the outcome
of the `execItem` call on item `i`, 0-based attempt `a`, and
`itemFallbackB i` the behaviour of `execItemFallback` on item `i`).
An empty input returns an empty results vector immediately (line 347). -/
def batchInternalExec {O : Type} (R W n : Nat) (execItemB : Nat → Nat → Outcome O)
    (itemFallbackB : Nat → Exn → Outcome O) : BatchOut O :=
  if n = 0 then ⟨[], .ok []⟩
  else batchLoop R W execItemB itemFallbackB 0 n

/-- A node as the orchestrator sees it through `IBaseNode`: its
`internalRun` behaviour as a function of the params most recently pushed
into it and of the shared context (returning the action and the updated
context), and its successor table. -/
structure ONode (V C : Type) where
  run : ParamsMap V → C → Option String × C
  successors : String → Option Nat

/-- `IBaseNode::getNextNode` as called on an `ONode`: normalize an absent
action to the empty (default) label, then look the label up (lines
181-198). -/
def oGetNextNode {V C : Type} (n : ONode V C) (action : Option String) : Option Nat :=
  n.successors (action.getD "")

/-- Result of a terminating orchestration: the `(node id, params)` pushed by
`setParamsInternal` before each node execution, in traversal order, the
final `lastAction`, and the final shared context. -/
structure OrchOut (V C : Type) where
  pushed : List (Nat × ParamsMap V)
  lastAction : Option String
  ctx : C

/-- The `while` loop of `Flow::orchestrate` (lines 450-454), fuel-bounded
because the source has no cycle detection: each iteration pushes
`runParams` into the current node, runs it, and moves to the successor
selected by the returned action.  `none` means the fuel ran out before
the loop found a node with no matching successor. -/
def orchLoop {V C : Type} (nodes : Nat → ONode V C) (runParams : ParamsMap V) :
    (fuel : Nat) → Option Nat → Option String → C → List (Nat × ParamsMap V) →
    Option (OrchOut V C)
  | _, none, last, c, acc => some ⟨acc.reverse, last, c⟩
  | 0, some _, _, _, _ => none
  | fuel + 1, some i, _, c, acc =>
    let nd := nodes i
    let (a, c2) := nd.run runParams c
    orchLoop nodes runParams fuel (oGetNextNode nd a) a c2 ((i, runParams) :: acc)

/-- `Flow::orchestrate` (lines 436-457): with no start node it returns
`nullopt` at once (after a warning); otherwise it computes
`currentRunParams` from the Flow's standing params and the invocation's
`initialParams` and walks the graph. -/
def orchestrate {V C : Type} (nodes : Nat → ONode V C) (startNode : Option Nat)
    (flowParams initialParams : ParamsMap V) (c : C) (fuel : Nat) :
    Option (OrchOut V C) :=
  match startNode with
  | none => some ⟨[], none, c⟩
  | some s =>
    orchLoop nodes (currentRunParams flowParams initialParams) fuel (some s) none c []

/-- `Flow::exec` (lines 430-432): unconditionally throws `std::logic_error`
before touching anything, so the context is returned unchanged. -/
def flowExec {C : Type} (c : C) (_prepResult : Unit) :
    Except Exn (Option String) × C :=
  (.error ⟨"std::logic_error",
    "Flow::exec() is internal and should not be called directly. Use run()."⟩, c)

/-- `BatchFlow::post` (lines 516-518): unconditionally throws
`std::logic_error` before touching anything, so the context is returned
unchanged. -/
def batchFlowPost {C : Type} (c : C) (_prepResult : Unit)
    (_execResult : Option String) : Except Exn (Option String) × C :=
  (.error ⟨"std::logic_error", "Use postBatch for BatchFlow, not post."⟩, c)

/-- Trace of `BatchFlow::internalRun`: the `initialParams` argument of each
`orchestrate` call in order, the returned action, and the final context. -/
structure BatchFlowOut (V C : Type) where
  orchCalls : List (ParamsMap V)
  result : Option String
  loopCtx : C
  ctx : C

/-- The `for` loop of `BatchFlow::internalRun` (lines 504-508): one
`orchestrate(sharedContext, batchParams)` call per parameter set, in
sequence order, each call's action discarded and only the context kept. -/
def batchFlowLoop {V C : Type} (nodes : Nat → ONode V C) (startNode : Option Nat)
    (flowParams : ParamsMap V) (fuel : Nat) :
    List (ParamsMap V) → C → Option (List (ParamsMap V) × C)
  | [], c => some ([], c)
  | p :: ps, c =>
    match orchestrate nodes startNode flowParams p c fuel with
    | none => none
    | some r =>
      match batchFlowLoop nodes startNode flowParams fuel ps r.ctx with
      | none => none
      | some (calls, c2) => some (p :: calls, c2)

/-- `BatchFlow::internalRun` (lines 496-512): call `prepBatch`, orchestrate
once per generated parameter set (an empty list is valid and skips the
loop), then return the value of `postBatch` on the context and the full
parameter-set list.  `none` only when some orchestration ran out of
fuel. -/
def batchFlowInternalRun {V C : Type} (nodes : Nat → ONode V C)
    (startNode : Option Nat) (flowParams : ParamsMap V)
    (prepBatch : C → List (ParamsMap V) × C)
    (postBatch : C → List (ParamsMap V) → Option String × C)
    (fuel : Nat) (c : C) : Option (BatchFlowOut V C) :=
  let pb := prepBatch c
  match batchFlowLoop nodes startNode flowParams fuel pb.1 pb.2 with
  | none => none
  | some (calls, c2) =>
    let post := postBatch c2 pb.1
    some ⟨calls, post.1, c2, post.2⟩

/-! ### Concrete instances used by witnesses and counterexamples -/

/-- Flow standing params `{"k" ↦ 1}`. -/
def c1FlowParams : ParamsMap Nat := fun k => if k = "k" then some 1 else none

/-- Per-invocation `initialParams` `{"k" ↦ 2}`. -/
def c1InitParams : ParamsMap Nat := fun k => if k = "k" then some 2 else none

/-- A single node producing no action, with no successors. -/
def c1Nodes : Nat → ONode Nat Unit := fun _ => ⟨fun _ c => (none, c), fun _ => none⟩

/-- A node whose standing params are `{"a" ↦ 1}`. -/
def c2Node : BaseNodeState Nat := ⟨fun k => if k = "a" then some 1 else none, fun _ => none⟩

/-- Orchestrator run params `{"b" ↦ 2}` (no collision with key `"a"`). -/
def c2RunParams : ParamsMap Nat := fun k => if k = "b" then some 2 else none

/-- A node with one successor, `{"x" ↦ 7}`. -/
def c6Node : BaseNodeState Nat :=
  ⟨fun _ => none, fun k => if k = "x" then some 7 else none⟩

/-! ### C1 — run-params override direction -/

/-- C1: the claim says the per-invocation `initialParams` win on key
collision, and the source comment at line 447 says the same
("Add/overwrite with initialParams"), but `std::map::insert` never
overwrites an existing key, so the Flow's standing value wins.  Concrete
evaluation: with flow params `{"k" ↦ 1}` and `initialParams`
`{"k" ↦ 2}`, the one node executed during orchestration has `k ↦ 1`
pushed into it, not `2`. -/
theorem orchestrate_pushes_flow_value_on_collision :
    c1FlowParams "k" = some 1 ∧ c1InitParams "k" = some 2 ∧
    (orchestrate c1Nodes (some 0) c1FlowParams c1InitParams () 1).map
        (fun r => r.pushed.map (fun pr => pr.2 "k")) = some [some 1] := by
  refine ⟨rfl, rfl, rfl⟩

/-! ### C2 — params push replaces, it does not merge -/

/-- C2 counterexample: pushing run params `{"b" ↦ 2}` into a node whose
standing params are `{"a" ↦ 1}` leaves the node unable to see `"a"`,
although `"a"` collides with nothing in the run params — refuting the
claim that non-colliding standing entries remain visible. -/
theorem setParamsInternal_drops_standing_entry :
    c2Node.params "a" = some 1 ∧ c2RunParams "a" = none ∧
    (setParamsInternal c2Node c2RunParams).params "a" = none ∧
    (setParamsInternal c2Node c2RunParams).params "b" = some 2 := by
  refine ⟨rfl, rfl, rfl, rfl⟩

/-- C2 (amended): `setParamsInternal` replaces the node's standing params
wholesale with the orchestrator's run params — afterwards the node's
params agree with the pushed map on every key (so orchestrator values do
take precedence, but standing entries under non-colliding keys are gone)
— and leaves the successor table untouched. -/
theorem setParamsInternal_replaces_wholesale {V : Type} (n : BaseNodeState V)
    (newParams : ParamsMap V) :
    (∀ k, (setParamsInternal n newParams).params k = newParams k) ∧
    (setParamsInternal n newParams).successors = n.successors := by
  exact ⟨fun _ => rfl, rfl⟩

/-! ### C6 — successor lookup and last-write-wins registration -/

/-- C6: looking a successor up with an absent action resolves the empty
(default) label; registering a second successor under a label already
used on the node replaces the prior target, so lookup of that label
returns the most recently registered node, while entries under every
other label are unchanged. -/
theorem successor_default_and_overwrite {V : Type} (n : BaseNodeState V)
    (n1 n2 : Nat) (a : String) :
    getNextNode n none = n.successors "" ∧
    getNextNode (nextSucc (nextSucc n n1 a) n2 a) (some a) = some n2 ∧
    (∀ b, b ≠ a → (nextSucc (nextSucc n n1 a) n2 a).successors b = n.successors b) := by
  refine ⟨rfl, ?_, ?_⟩
  · simp [getNextNode, nextSucc]
  · intro b hb
    simp [nextSucc, hb]

/-- C6 witness: instantiated on the node `{"x" ↦ 7}` with two successive
registrations under label `"go"`. -/
theorem successor_default_and_overwrite_witness :
    getNextNode c6Node none = c6Node.successors "" ∧
    getNextNode (nextSucc (nextSucc c6Node 1 "go") 2 "go") (some "go") = some 2 ∧
    (nextSucc (nextSucc c6Node 1 "go") 2 "go").successors "x" = c6Node.successors "x" :=
  ⟨(successor_default_and_overwrite c6Node 1 2 "go").1,
   (successor_default_and_overwrite c6Node 1 2 "go").2.1,
   (successor_default_and_overwrite c6Node 1 2 "go").2.2 "x" (by decide)⟩

/-! ### C8 — constructor validation -/

/-- C8: constructing a `Node` with `maxRetries < 1` or `waitMillis < 0`
throws `std::invalid_argument` immediately; with `maxRetries ≥ 1` and
`waitMillis ≥ 0` it succeeds, and every successfully constructed node
stores values satisfying `maxRetries ≥ 1 ∧ waitMillis ≥ 0`. -/
theorem nodeCtor_validates (r w : Int) :
    (r < 1 → nodeCtor r w =
      .error ⟨"std::invalid_argument", "maxRetries must be at least 1"⟩) ∧
    (1 ≤ r → w < 0 → nodeCtor r w =
      .error ⟨"std::invalid_argument", "waitMillis cannot be negative"⟩) ∧
    (1 ≤ r → 0 ≤ w → nodeCtor r w = .ok (r, w)) ∧
    (∀ p, nodeCtor r w = .ok p → 1 ≤ p.1 ∧ 0 ≤ p.2) := by
  refine ⟨fun h1 => ?_, fun h1 h2 => ?_, fun h1 h2 => ?_, fun p hp => ?_⟩
  · simp [nodeCtor, h1]
  · simp [nodeCtor, h2, not_lt.mpr h1]
  · simp [nodeCtor, not_lt.mpr h1, not_lt.mpr h2]
  · unfold nodeCtor at hp
    by_cases h1 : r < 1
    · simp [h1] at hp
    · by_cases h2 : w < 0
      · simp [h1, h2] at hp
      · simp [h1, h2] at hp
        rw [← hp]
        omega

/-- C8 witness: `nodeCtor 0 5` and `nodeCtor 3 (-1)` fail, `nodeCtor 3 5`
succeeds with values satisfying the invariant. -/
theorem nodeCtor_validates_witness :
    nodeCtor 0 5 = .error ⟨"std::invalid_argument", "maxRetries must be at least 1"⟩ ∧
    nodeCtor 3 (-1) = .error ⟨"std::invalid_argument", "waitMillis cannot be negative"⟩ ∧
    nodeCtor 3 5 = .ok (3, 5) ∧
    (1 ≤ (3 : Int) ∧ 0 ≤ (5 : Int)) :=
  ⟨(nodeCtor_validates 0 5).1 (by decide),
   (nodeCtor_validates 3 (-1)).2.1 (by decide) (by decide),
   (nodeCtor_validates 3 5).2.2.1 (by decide) (by decide),
   (nodeCtor_validates 3 5).2.2.2 (3, 5)
     ((nodeCtor_validates 3 5).2.2.1 (by decide) (by decide))⟩

/-! ### C9 — disallowed override points -/

/-- C9: calling `Flow::exec` directly, and calling `BatchFlow`'s generic
`post`, always throws `std::logic_error` (a structural error), for every
argument, and returns the shared context unchanged (no state is
mutated). -/
theorem flowExec_and_batchFlowPost_throw {C : Type} (c : C) (pr : Unit)
    (er : Option String) :
    flowExec c pr = (.error ⟨"std::logic_error",
      "Flow::exec() is internal and should not be called directly. Use run()."⟩, c) ∧
    batchFlowPost c pr er =
      (.error ⟨"std::logic_error", "Use postBatch for BatchFlow, not post."⟩, c) :=
  ⟨rfl, rfl⟩

/-! ### Retry-loop lemmas -/

/-- The inter-attempt gap records at least `waitMillis`. -/
theorem gap_ge_wait (W : Nat) : W ≤ if 0 < W then W else 0 := by
  split <;> omega

/-- If every one of `m ≥ 1` attempts throws, the retry loop performs exactly
`m` `exec` calls, enters exactly `m - 1` inter-attempt gaps, and leaves the
stored form of the last attempt's exception behind. -/
theorem retryLoop_all_fail (nonStdMsg : String) {E : Type} (W : Nat)
    (execB : Nat → Outcome E) :
    ∀ (m idx : Nat) (last : Option Exn), 0 < m →
      (∀ i, i < m → (execB (idx + i)).isThrow = true) →
      retryLoop nonStdMsg W execB idx m last =
        ⟨m, List.replicate (m - 1) (if 0 < W then W else 0),
          .error (storedExn nonStdMsg (execB (idx + (m - 1))))⟩ := by
  intro m
  induction m with
  | zero => intro idx last h _; exact absurd h (by omega)
  | succ m ih =>
    intro idx last _ hfail
    have h0 : (execB idx).isThrow = true := by simpa using hfail 0 (Nat.succ_pos m)
    rcases Nat.eq_zero_or_pos m with hm | hm
    · subst hm
      cases hex : execB idx with
      | ok v => rw [hex] at h0; simp [Outcome.isThrow] at h0
      | throwStd e => simp [retryLoop, hex, storedExn]
      | throwNonStd => simp [retryLoop, hex, storedExn]
    · have hfail2 : ∀ i, i < m → (execB (idx + 1 + i)).isThrow = true := by
        intro i hi
        have h := hfail (i + 1) (by omega)
        rwa [show idx + (i + 1) = idx + 1 + i by omega] at h
      have hidx : idx + 1 + (m - 1) = idx + m := by omega
      have hrep : (if 0 < W then W else 0) ::
          List.replicate (m - 1) (if 0 < W then W else 0)
          = List.replicate m (if 0 < W then W else 0) := by
        rw [← List.replicate_succ]
        congr 1
        omega
      cases hex : execB idx with
      | ok v => rw [hex] at h0; simp [Outcome.isThrow] at h0
      | throwStd e =>
        simp only [retryLoop, hex, ih (idx + 1) _ hm hfail2]
        simp [hm, hrep, hidx, show m + 1 - 1 = m by omega]
      | throwNonStd =>
        simp only [retryLoop, hex, ih (idx + 1) _ hm hfail2]
        simp [hm, hrep, hidx, show m + 1 - 1 = m by omega]

/-- If the first `k` attempts throw and attempt `k + 1` (0-based index `k`)
succeeds with `v`, and the loop has more than `k` iterations available,
it performs exactly `k + 1` `exec` calls, enters exactly `k`
inter-attempt gaps, and returns `v`. -/
theorem retryLoop_succeeds (nonStdMsg : String) {E : Type} (W : Nat)
    (execB : Nat → Outcome E) :
    ∀ (k idx m : Nat) (last : Option Exn) (v : E),
      (∀ i, i < k → (execB (idx + i)).isThrow = true) →
      execB (idx + k) = .ok v → k < m →
      retryLoop nonStdMsg W execB idx m last =
        ⟨k + 1, List.replicate k (if 0 < W then W else 0), .ok v⟩ := by
  intro k
  induction k with
  | zero =>
    intro idx m last v _ hsucc hm
    cases m with
    | zero => exact absurd hm (by omega)
    | succ m2 => simp only [retryLoop]; rw [show idx + 0 = idx from rfl] at hsucc;
                 simp [hsucc]
  | succ k ih =>
    intro idx m last v hfail hsucc hm
    cases m with
    | zero => exact absurd hm (by omega)
    | succ m2 =>
      have hm2 : k < m2 := by omega
      have h0 : (execB idx).isThrow = true := by simpa using hfail 0 (Nat.succ_pos k)
      have hfail2 : ∀ i, i < k → (execB (idx + 1 + i)).isThrow = true := by
        intro i hi
        have h := hfail (i + 1) (by omega)
        rwa [show idx + (i + 1) = idx + 1 + i by omega] at h
      have hsucc2 : execB (idx + 1 + k) = .ok v := by
        rwa [show idx + (k + 1) = idx + 1 + k by omega] at hsucc
      have hm2pos : 0 < m2 := by omega
      cases hex : execB idx with
      | ok v2 => rw [hex] at h0; simp [Outcome.isThrow] at h0
      | throwStd e =>
        simp only [retryLoop, hex, ih (idx + 1) m2 _ v hfail2 hsucc2 hm2]
        simp [hm2pos, List.replicate_succ]
      | throwNonStd =>
        simp only [retryLoop, hex, ih (idx + 1) m2 _ v hfail2 hsucc2 hm2]
        simp [hm2pos, List.replicate_succ]

/-! ### C4 — retry exhaustion -/

/-- C4: a node with `maxRetries = R ≥ 1` whose `exec` throws on every
attempt calls `exec` exactly `R` times, calls `execFallback` exactly
once, and enters exactly `R - 1` inter-attempt gaps, each waiting at
least `waitMillis` (a gap is entered only when another attempt
remains). -/
theorem node_retry_exhaustion_counts {E : Type} (R W : Nat)
    (execB : Nat → Outcome E) (fallbackB : Exn → Outcome E) (hR : 0 < R)
    (hfail : ∀ i, i < R → (execB i).isThrow = true) :
    (nodeInternalExec R W execB fallbackB).execCalls = R ∧
    (nodeInternalExec R W execB fallbackB).fallbackCalls = 1 ∧
    (nodeInternalExec R W execB fallbackB).delays.length = R - 1 ∧
    (∀ d ∈ (nodeInternalExec R W execB fallbackB).delays, W ≤ d) := by
  have hloop := retryLoop_all_fail "Non-standard exception caught during exec" W
    execB R 0 none hR (by simpa using hfail)
  have hlast : (execB (0 + (R - 1))).isThrow = true := by
    simpa using hfail (R - 1) (by omega)
  unfold nodeInternalExec
  rw [hloop]
  cases hex : execB (0 + (R - 1)) with
  | ok v => rw [hex] at hlast; simp [Outcome.isThrow] at hlast
  | throwStd e =>
    simp only [hex, storedExn]
    cases fallbackB ⟨"std::runtime_error", e.msg⟩ <;>
      refine ⟨rfl, rfl, by simp, ?_⟩ <;>
      · intro d hd
        simp only [List.eq_of_mem_replicate hd]
        exact gap_ge_wait W
  | throwNonStd =>
    simp only [hex, storedExn]
    cases fallbackB ⟨"std::runtime_error", "Non-standard exception caught during exec"⟩ <;>
      refine ⟨rfl, rfl, by simp, ?_⟩ <;>
      · intro d hd
        simp only [List.eq_of_mem_replicate hd]
        exact gap_ge_wait W

/-- Always-failing `exec` used by the C4 witness. -/
def c4ExecB : Nat → Outcome Nat := fun _ => .throwStd ⟨"MyError", "boom"⟩

/-- Failing fallback used by the C4 witness. -/
def c4FallbackB : Exn → Outcome Nat := fun _ => .throwStd ⟨"OtherError", "fb"⟩

/-- C4 witness: `R = 2`, `W = 5`, every attempt fails: 2 `exec` calls, 1
fallback call, 1 inter-attempt gap. -/
theorem node_retry_exhaustion_counts_witness :
    (nodeInternalExec 2 5 c4ExecB c4FallbackB).execCalls = 2 ∧
    (nodeInternalExec 2 5 c4ExecB c4FallbackB).fallbackCalls = 1 ∧
    (nodeInternalExec 2 5 c4ExecB c4FallbackB).delays.length = 2 - 1 :=
  ⟨(node_retry_exhaustion_counts 2 5 c4ExecB c4FallbackB (by decide)
      (fun _ _ => rfl)).1,
   (node_retry_exhaustion_counts 2 5 c4ExecB c4FallbackB (by decide)
      (fun _ _ => rfl)).2.1,
   (node_retry_exhaustion_counts 2 5 c4ExecB c4FallbackB (by decide)
      (fun _ _ => rfl)).2.2.1⟩

/-! ### C5 — success on attempt k -/

/-- C5: a node whose `exec` first succeeds on attempt `k` (1-based,
`1 ≤ k ≤ R`) calls `exec` exactly `k` times, never calls `execFallback`,
enters exactly `k - 1` inter-attempt gaps, and `internalExec` returns the
value of the successful attempt. -/
theorem node_success_attempt_counts {E : Type} (R W k : Nat)
    (execB : Nat → Outcome E) (fallbackB : Exn → Outcome E) (v : E)
    (hk : 0 < k) (hkR : k ≤ R)
    (hfail : ∀ i, i < k - 1 → (execB i).isThrow = true)
    (hsucc : execB (k - 1) = .ok v) :
    (nodeInternalExec R W execB fallbackB).execCalls = k ∧
    (nodeInternalExec R W execB fallbackB).fallbackCalls = 0 ∧
    (nodeInternalExec R W execB fallbackB).delays.length = k - 1 ∧
    (nodeInternalExec R W execB fallbackB).result = .ok v := by
  have hloop := retryLoop_succeeds "Non-standard exception caught during exec" W
    execB (k - 1) 0 R none v (by simpa using hfail) (by simpa using hsucc)
    (by omega)
  unfold nodeInternalExec
  rw [hloop]
  refine ⟨?_, rfl, ?_, rfl⟩
  · show k - 1 + 1 = k
    omega
  · show (List.replicate (k - 1) (if 0 < W then W else 0)).length = k - 1
    simp

/-- `exec` behaviour for the C5 witness: fails on attempt 1, succeeds with
`7` on attempt 2. -/
def c5ExecB : Nat → Outcome Nat := fun i => if i = 0 then .throwStd ⟨"E", "x"⟩ else .ok 7

/-- C5 witness: `R = 3`, success on attempt `k = 2`: 2 `exec` calls, no
fallback call, 1 gap, result `7`. -/
theorem node_success_attempt_counts_witness :
    (nodeInternalExec 3 5 c5ExecB c4FallbackB).execCalls = 2 ∧
    (nodeInternalExec 3 5 c5ExecB c4FallbackB).fallbackCalls = 0 ∧
    (nodeInternalExec 3 5 c5ExecB c4FallbackB).delays.length = 2 - 1 ∧
    (nodeInternalExec 3 5 c5ExecB c4FallbackB).result = .ok 7 :=
  node_success_attempt_counts 3 5 2 c5ExecB c4FallbackB 7 (by decide) (by decide)
    (fun i hi => by
      have h0 : i = 0 := by omega
      rw [h0]; rfl)
    rfl

/-! ### C10 — the exception object handed to the fallback -/

/-- C10: when every attempt fails, the exception passed to `execFallback`
(resp. `execItemFallback`) is a freshly built `std::runtime_error`
carrying only the `what()` text of the last failure — the dynamic type
(and any payload) of the original exception is never forwarded — and a
non-standard failure is replaced by the fixed placeholder message of the
respective loop. -/
theorem fallback_gets_fresh_runtime_error {E O : Type} (R W : Nat)
    (execB : Nat → Outcome E) (fallbackB : Exn → Outcome E)
    (execItemB : Nat → Outcome O) (itemFallbackB : Exn → Outcome O)
    (hR : 0 < R)
    (hfail : ∀ i, i < R → (execB i).isThrow = true)
    (hfailI : ∀ i, i < R → (execItemB i).isThrow = true) :
    (∀ e, execB (R - 1) = .throwStd e →
      (nodeInternalExec R W execB fallbackB).fallbackArg =
        some ⟨"std::runtime_error", e.msg⟩) ∧
    (execB (R - 1) = .throwNonStd →
      (nodeInternalExec R W execB fallbackB).fallbackArg =
        some ⟨"std::runtime_error", "Non-standard exception caught during exec"⟩) ∧
    (∀ e, execItemB (R - 1) = .throwStd e →
      (batchItemRun R W execItemB itemFallbackB).fallbackArg =
        some ⟨"std::runtime_error", e.msg⟩) ∧
    (execItemB (R - 1) = .throwNonStd →
      (batchItemRun R W execItemB itemFallbackB).fallbackArg =
        some ⟨"std::runtime_error", "Non-standard exception during execItem"⟩) := by
  have hloopN := retryLoop_all_fail "Non-standard exception caught during exec" W
    execB R 0 none hR (by simpa using hfail)
  have hloopI := retryLoop_all_fail "Non-standard exception during execItem" W
    execItemB R 0 none hR (by simpa using hfailI)
  have h0R : 0 + (R - 1) = R - 1 := by omega
  rw [h0R] at hloopN hloopI
  refine ⟨fun e he => ?_, fun he => ?_, fun e he => ?_, fun he => ?_⟩
  · unfold nodeInternalExec
    rw [hloopN, he]
    simp only [storedExn]
    cases fallbackB ⟨"std::runtime_error", e.msg⟩ <;> rfl
  · unfold nodeInternalExec
    rw [hloopN, he]
    simp only [storedExn]
    cases fallbackB ⟨"std::runtime_error", "Non-standard exception caught during exec"⟩ <;>
      rfl
  · unfold batchItemRun
    rw [hloopI, he]
    simp only [storedExn]
    cases itemFallbackB ⟨"std::runtime_error", e.msg⟩ <;> rfl
  · unfold batchItemRun
    rw [hloopI, he]
    simp only [storedExn]
    cases itemFallbackB ⟨"std::runtime_error", "Non-standard exception during execItem"⟩ <;>
      rfl

/-- Always non-standard-throwing `execItem` used by the C10 witness. -/
def c10ItemB : Nat → Outcome Nat := fun _ => .throwNonStd

/-- Recovering item fallback used by the C10 witness. -/
def c10ItemFB : Exn → Outcome Nat := fun _ => .ok 0

/-- C10 witness: `R = 2`; the node's last failure is a `MyError` with
message `"boom"` and the fallback receives a plain `std::runtime_error`
with message `"boom"`; the batch item's failures are non-standard and the
item fallback receives the fixed placeholder. -/
theorem fallback_gets_fresh_runtime_error_witness :
    (nodeInternalExec 2 5 c4ExecB c4FallbackB).fallbackArg =
      some ⟨"std::runtime_error", "boom"⟩ ∧
    (batchItemRun 2 5 c10ItemB c10ItemFB).fallbackArg =
      some ⟨"std::runtime_error", "Non-standard exception during execItem"⟩ :=
  ⟨(fallback_gets_fresh_runtime_error 2 5 c4ExecB c4FallbackB c10ItemB c10ItemFB
      (by decide) (fun _ _ => rfl) (fun _ _ => rfl)).1 ⟨"MyError", "boom"⟩ rfl,
   (fallback_gets_fresh_runtime_error 2 5 c4ExecB c4FallbackB c10ItemB c10ItemFB
      (by decide) (fun _ _ => rfl) (fun _ _ => rfl)).2.2.2 rfl⟩

/-! ### C3 — batch item loop -/

/-- If every item in the window succeeds, the batch loop enters every item
and collects the per-item values in input order. -/
theorem batchLoop_all_ok {O : Type} (R W : Nat) (execItemB : Nat → Nat → Outcome O)
    (itemFallbackB : Nat → Exn → Outcome O) (v : Nat → O) :
    ∀ (count i : Nat),
      (∀ t, t < count →
        (batchItemRun R W (execItemB (i + t)) (itemFallbackB (i + t))).result =
          .ok (v (i + t))) →
      (batchLoop R W execItemB itemFallbackB i count).result =
        .ok ((List.range count).map (fun t => v (i + t))) ∧
      (batchLoop R W execItemB itemFallbackB i count).itemTraces.length = count := by
  intro count
  induction count with
  | zero => intro i _; exact ⟨rfl, rfl⟩
  | succ count ih =>
    intro i h
    have h0 : (batchItemRun R W (execItemB i) (itemFallbackB i)).result = .ok (v i) := by
      simpa using h 0 (Nat.succ_pos count)
    have hrest := ih (i + 1) (fun t ht => by
      have hht := h (t + 1) (by omega)
      rwa [show i + (t + 1) = i + 1 + t by omega] at hht)
    have hfun : (fun t => v (i + 1 + t)) = (fun t => v (i + (t + 1))) := by
      funext t
      congr 1
      omega
    constructor
    · simp only [batchLoop]
      rw [h0, hrest.1]
      simp [List.range_succ_eq_map, List.map_map, Function.comp, hfun]
    · simp only [batchLoop]
      rw [h0]
      simp [hrest.2]

/-- If items `i, ..., i+j-1` succeed and item `i+j` fails (retries and
fallback exhausted), the batch loop escalates that item's exception and
enters exactly the items up to and including the failing one. -/
theorem batchLoop_fail {O : Type} (R W : Nat) (execItemB : Nat → Nat → Outcome O)
    (itemFallbackB : Nat → Exn → Outcome O) (v : Nat → O) (e : Exn) :
    ∀ (j i count : Nat), j < count →
      (∀ t, t < j →
        (batchItemRun R W (execItemB (i + t)) (itemFallbackB (i + t))).result =
          .ok (v (i + t))) →
      (batchItemRun R W (execItemB (i + j)) (itemFallbackB (i + j))).result = .error e →
      (batchLoop R W execItemB itemFallbackB i count).result = .error e ∧
      (batchLoop R W execItemB itemFallbackB i count).itemTraces.length = j + 1 := by
  intro j
  induction j with
  | zero =>
    intro i count hj _ herr
    cases count with
    | zero => exact absurd hj (by omega)
    | succ c =>
      rw [show i + 0 = i from rfl] at herr
      constructor
      · simp only [batchLoop]
        rw [herr]
      · simp only [batchLoop]
        rw [herr]
        rfl
  | succ j ih =>
    intro i count hj hok herr
    cases count with
    | zero => exact absurd hj (by omega)
    | succ c =>
      have h0 : (batchItemRun R W (execItemB i) (itemFallbackB i)).result = .ok (v i) := by
        simpa using hok 0 (Nat.succ_pos j)
      have hrest := ih (i + 1) c (by omega)
        (fun t ht => by
          have hht := hok (t + 1) (by omega)
          rwa [show i + (t + 1) = i + 1 + t by omega] at hht)
        (by rwa [show i + (j + 1) = i + 1 + j by omega] at herr)
      constructor
      · simp only [batchLoop]
        rw [h0, hrest.1]
      · simp only [batchLoop]
        rw [h0]
        simp [hrest.2]

/-- C3: for a `BatchNode` over an input sequence of length `n`: if every
item succeeds, the output sequence has length `n` with `output[i]`
the value produced for `input[i]` (input order preserved); if some item
`j` exhausts its retries and its fallback also fails, the whole batch
aborts with the escalated exception, no output sequence is returned, and
no item after `j` is entered. -/
theorem batch_order_and_abort {O : Type} (R W n j : Nat)
    (execItemB : Nat → Nat → Outcome O) (itemFallbackB : Nat → Exn → Outcome O)
    (v : Nat → O) (e : Exn) :
    ((∀ i, i < n →
        (batchItemRun R W (execItemB i) (itemFallbackB i)).result = .ok (v i)) →
      (batchInternalExec R W n execItemB itemFallbackB).result =
        .ok ((List.range n).map v) ∧
      (batchInternalExec R W n execItemB itemFallbackB).itemTraces.length = n) ∧
    (j < n →
      (∀ i, i < j →
        (batchItemRun R W (execItemB i) (itemFallbackB i)).result = .ok (v i)) →
      (batchItemRun R W (execItemB j) (itemFallbackB j)).result = .error e →
      (batchInternalExec R W n execItemB itemFallbackB).result = .error e ∧
      (batchInternalExec R W n execItemB itemFallbackB).itemTraces.length = j + 1) := by
  constructor
  · intro hall
    rcases Nat.eq_zero_or_pos n with hn | hn
    · subst hn
      exact ⟨rfl, rfl⟩
    · have hres := batchLoop_all_ok R W execItemB itemFallbackB v n 0
        (fun t ht => by simpa using hall t ht)
      unfold batchInternalExec
      rw [if_neg (by omega)]
      refine ⟨?_, hres.2⟩
      rw [hres.1]
      simp
  · intro hj hok herr
    have hres := batchLoop_fail R W execItemB itemFallbackB v e j 0 n hj
      (fun t ht => by simpa using hok t ht) (by simpa using herr)
    unfold batchInternalExec
    rw [if_neg (by omega)]
    exact hres

/-- Per-item values for the C3 witness. -/
def c3V : Nat → Nat := fun i => 10 * i + 1

/-- Always-succeeding `execItem` for the C3 witness. -/
def c3OkB : Nat → Nat → Outcome Nat := fun i _ => .ok (c3V i)

/-- Unused item fallback for the C3 witness success part. -/
def c3NoFB : Nat → Exn → Outcome Nat := fun _ _ => .ok 0

/-- Always-failing `execItem` for the C3 witness abort part. -/
def c3FailB : Nat → Nat → Outcome Nat := fun _ _ => .throwStd ⟨"E", "it"⟩

/-- Failing item fallback for the C3 witness abort part. -/
def c3FailFB : Nat → Exn → Outcome Nat := fun _ _ => .throwStd ⟨"F", "fb"⟩

/-- The exception escalated when item 0's fallback fails in the C3
witness. -/
def c3Err : Exn := ⟨"NeuralFlowException", causedMsg "Item fallback execution failed." "fb"⟩

/-- C3 witness: a 2-item batch where every item succeeds yields
`[c3V 0, c3V 1]` with both items entered; a 2-item batch whose item 0
fails (fallback included) aborts with the wrapped exception having
entered only item 0. -/
theorem batch_order_and_abort_witness :
    ((batchInternalExec 1 0 2 c3OkB c3NoFB).result = .ok ((List.range 2).map c3V) ∧
      (batchInternalExec 1 0 2 c3OkB c3NoFB).itemTraces.length = 2) ∧
    ((batchInternalExec 1 0 2 c3FailB c3FailFB).result = .error c3Err ∧
      (batchInternalExec 1 0 2 c3FailB c3FailFB).itemTraces.length = 0 + 1) :=
  ⟨(batch_order_and_abort 1 0 2 0 c3OkB c3NoFB c3V c3Err).1 (fun i _ => rfl),
   (batch_order_and_abort 1 0 2 0 c3FailB c3FailFB c3V c3Err).2 (by decide)
     (fun i hi => absurd hi (by omega)) rfl⟩

/-! ### C7 — BatchFlow runs the orchestration once per parameter set -/

/-- A successful `BatchFlow` loop performed exactly one `orchestrate` call
per parameter set, in sequence order. -/
theorem batchFlowLoop_calls {V C : Type} (nodes : Nat → ONode V C)
    (startNode : Option Nat) (flowParams : ParamsMap V) (fuel : Nat) :
    ∀ (ps : List (ParamsMap V)) (c : C) (calls : List (ParamsMap V)) (c2 : C),
      batchFlowLoop nodes startNode flowParams fuel ps c = some (calls, c2) →
      calls = ps := by
  intro ps
  induction ps with
  | nil =>
    intro c calls c2 h
    simp only [batchFlowLoop, Option.some.injEq, Prod.mk.injEq] at h
    exact h.1.symm
  | cons p ps ih =>
    intro c calls c2 h
    simp only [batchFlowLoop] at h
    cases horch : orchestrate nodes startNode flowParams p c fuel with
    | none => rw [horch] at h; exact absurd h (by simp)
    | some r =>
      simp only [horch] at h
      cases hrec : batchFlowLoop nodes startNode flowParams fuel ps r.ctx with
      | none => simp only [hrec] at h; exact absurd h (by simp)
      | some pr =>
        obtain ⟨calls2, c3⟩ := pr
        simp only [hrec, Option.some.injEq, Prod.mk.injEq] at h
        rw [← h.1, ih r.ctx calls2 c3 hrec]

/-- C7: `BatchFlow::internalRun` calls `prepBatch`, then performs one
`orchestrate` call per generated parameter set in sequence order
(each sub-run's action is discarded — only the threaded context is
kept), and returns the value of `postBatch` (applied to the context
after the sub-runs and the full parameter-set list) as its overall
result; when `prepBatch` yields an empty sequence, no orchestration
occurs and `postBatch` still runs on the context `prepBatch` left. -/
theorem batchflow_orchestrates_each_paramset {V C : Type} (nodes : Nat → ONode V C)
    (startNode : Option Nat) (flowParams : ParamsMap V)
    (prepBatch : C → List (ParamsMap V) × C)
    (postBatch : C → List (ParamsMap V) → Option String × C)
    (fuel : Nat) (c : C) (out : BatchFlowOut V C)
    (h : batchFlowInternalRun nodes startNode flowParams prepBatch postBatch fuel c
      = some out) :
    out.orchCalls = (prepBatch c).1 ∧
    out.result = (postBatch out.loopCtx (prepBatch c).1).1 ∧
    ((prepBatch c).1 = [] → out.orchCalls = [] ∧ out.loopCtx = (prepBatch c).2) := by
  simp only [batchFlowInternalRun] at h
  cases hloop : batchFlowLoop nodes startNode flowParams fuel (prepBatch c).1
      (prepBatch c).2 with
  | none => rw [hloop] at h; exact absurd h (by simp)
  | some pr =>
    obtain ⟨calls, c2⟩ := pr
    rw [hloop] at h
    have hout := Option.some.inj h
    subst hout
    have hcalls := batchFlowLoop_calls nodes startNode flowParams fuel
      (prepBatch c).1 (prepBatch c).2 calls c2 hloop
    refine ⟨hcalls, rfl, fun hnil => ?_⟩
    rw [hnil] at hloop
    simp only [batchFlowLoop, Option.some.injEq, Prod.mk.injEq] at hloop
    exact ⟨by rw [hcalls, hnil], hloop.2.symm⟩

/-- Parameter set `{"p" ↦ 1}` for the C7 witness. -/
def c7P1 : ParamsMap Nat := fun k => if k = "p" then some 1 else none

/-- Parameter set `{"p" ↦ 2}` for the C7 witness. -/
def c7P2 : ParamsMap Nat := fun k => if k = "p" then some 2 else none

/-- One trivial node (no action, no successors) for the C7 witness. -/
def c7Nodes : Nat → ONode Nat Nat := fun _ => ⟨fun _ c => (none, c), fun _ => none⟩

/-- Empty Flow standing params for the C7 witness. -/
def c7FP : ParamsMap Nat := fun _ => none

/-- `prepBatch` for the C7 witness: two parameter sets, bumping the
context. -/
def c7Prep : Nat → List (ParamsMap Nat) × Nat := fun c => ([c7P1, c7P2], c + 1)

/-- `postBatch` for the C7 witness. -/
def c7Post : Nat → List (ParamsMap Nat) → Option String × Nat :=
  fun c _ => (some "done", c + 10)

/-- The trace of the C7 witness run. -/
def c7Out : BatchFlowOut Nat Nat := ⟨[c7P1, c7P2], some "done", 1, 11⟩

/-- C7 witness: on the two-set batch, the orchestrate calls are exactly the
two generated parameter sets in order and the result is `postBatch`'s
value. -/
theorem batchflow_orchestrates_each_paramset_witness :
    c7Out.orchCalls = (c7Prep 0).1 ∧
    c7Out.result = (c7Post c7Out.loopCtx (c7Prep 0).1).1 :=
  ⟨(batchflow_orchestrates_each_paramset c7Nodes (some 0) c7FP c7Prep c7Post 1 0
      c7Out rfl).1,
   (batchflow_orchestrates_each_paramset c7Nodes (some 0) c7FP c7Prep c7Post 1 0
      c7Out rfl).2.1⟩

end NeuralFlow
